import Mathlib

/-!
Shallow embedding of the sequence-queue and production-pipeline engine of the
crm-usa-cantalab repository (src/queue.js, src/server.js, the scheduler and
whatsappService modules), together with theorems settling the frozen claims
about it.  External I/O (the WhatsApp gateway, OpenAI, Suno, ffmpeg) is
modelled by oracle parameters; the Firestore collections are modelled as
lists in insertion order, with queries as filters over them.  Denormalized
writes that no claim observes (message subcollections, lead tag unions) are
not modelled.
-/

namespace Crm

/- ======================= utilities (queue.js) ======================= -/

/-- Word character of the token pattern: ASCII letters, digits, underscore. -/
def isWordChar (c : Char) : Bool := c.isAlphanum || c == '_'

/-- Digits-only filter; the replace of every non-digit by nothing. -/
def digitsOnly (s : String) : String := String.mk (s.data.filter Char.isDigit)

/-- The whitespace trim of a string, over its character list. -/
def jsTrim (s : String) : String :=
  String.mk (((s.data.dropWhile Char.isWhitespace).reverse.dropWhile
    Char.isWhitespace).reverse)

/-- First whitespace-delimited token of a full name, from queue.js firstName. -/
def firstName (full : String) : String :=
  String.mk ((jsTrim full).data.takeWhile (fun c => !c.isWhitespace))

/-- A lead record as read from the leads collection; fields other than the
name and phone are kept in an association list. -/
structure Lead where
  id : String
  nombre : String
  telefono : String
  fields : List (String × String)
  hasActiveSequences : Bool := false
  lastMessageAt : Option Int := none
deriving Repr, DecidableEq

/-- Lookup of a dynamic lead field. -/
def lookupField (fields : List (String × String)) (key : String) : Option String :=
  (fields.find? (fun p => p.1 == key)).map (fun p => p.2)

/-- Value substituted for a token key, from queue.js replacePlaceholders. -/
def leadValue (lead : Lead) (key : String) : String :=
  if key == "telefono" then digitsOnly lead.telefono
  else if key == "nombre" then firstName lead.nombre
  else (lookupField lead.fields key).getD ""

/-- Longest leading run of word characters, and the remainder. -/
def takeWord : List Char → List Char × List Char
  | [] => ([], [])
  | c :: cs =>
    if isWordChar c then (c :: (takeWord cs).1, (takeWord cs).2)
    else ([], c :: cs)

/-- One attempt of the token pattern at the current position: two opening
braces, a nonempty word, two closing braces.  Returns the key and the
remainder after the match. -/
def matchToken (l : List Char) : Option (List Char × List Char) :=
  match l with
  | c1 :: c2 :: rest =>
    if c1 == '{' && c2 == '{' then
      if (takeWord rest).1.isEmpty then none
      else
        match (takeWord rest).2 with
        | d1 :: d2 :: rest2 =>
          if d1 == '}' && d2 == '}' then some ((takeWord rest).1, rest2) else none
        | _ => none
    else none
  | _ => none

/-- Fuel-driven scan of the template; each step either replaces a token match
at the current position or copies one character, exactly as the global
regex replace does. -/
def renderGo (f : String → String) : Nat → List Char → List Char
  | 0, l => l
  | _ + 1, [] => []
  | fuel + 1, c :: cs =>
    match matchToken (c :: cs) with
    | some p => (f (String.mk p.1)).data ++ renderGo f fuel p.2
    | none => c :: renderGo f fuel cs

/-- Replace every token of the template, scanning left to right. -/
def renderChars (f : String → String) (l : List Char) : List Char :=
  renderGo f l.length l

/-- queue.js replacePlaceholders: empty template renders to the empty string,
otherwise every token is replaced by the lead value for its key. -/
def replacePlaceholders (template : String) (lead : Lead) : String :=
  if template == "" then ""
  else String.mk (renderChars (leadValue lead) template.data)

/- ==================== sequence queue (queue.js) ==================== -/

/-- Message payload of a queued step. -/
structure Payload where
  type : String
  contenido : String
deriving Repr, DecidableEq

/-- One document of the sequenceQueue collection. -/
structure SequenceTask where
  id : Nat
  leadId : String
  trigger : String
  idx : Nat
  payload : Payload
  dueAt : Int
  status : String
  shard : Nat
  processedAt : Option Int := none
  errorMsg : Option String := none
deriving Repr, DecidableEq

/-- The persistent state the queue engine touches: the sequenceQueue
collection, the leads collection, and a document-id allocator. -/
structure Store where
  queue : List SequenceTask
  leads : List Lead
  nextId : Nat
deriving Repr, DecidableEq

/-- An outbound message handed to the WhatsApp gateway. -/
inductive SendAction where
  | text (phone content : String)
  | clip (phone url : String)
  | image (phone url : String)
  | video (phone url : String)
deriving Repr, DecidableEq

/-- One gateway send; the oracle decides whether the gateway throws. -/
def attemptSend (gw : SendAction → Option String) (a : SendAction) :
    Except String (List SendAction) :=
  match gw a with
  | none => .ok [a]
  | some e => .error e

/-- queue.js deliverPayload: look the lead up, require a usable phone, then
dispatch on the payload type; the final branch is the catch-all default. -/
def deliverPayload (gw : SendAction → Option String) (sock : Bool)
    (leads : List Lead) (leadId : String) (p : Payload) :
    Except String (List SendAction) :=
  match leads.find? (fun L => L.id == leadId) with
  | none => .error ("Lead no existe: " ++ leadId)
  | some lead =>
    let phone := digitsOnly lead.telefono
    if phone == "" then .error ("Lead sin telefono: " ++ leadId)
    else
      let ty := if p.type == "" then "texto" else p.type
      if ty == "texto" then
        let text := jsTrim (replacePlaceholders p.contenido lead)
        if text == "" then .ok [] else attemptSend gw (.text phone text)
      else if ty == "formulario" then
        let text := jsTrim (replacePlaceholders p.contenido lead)
        if text == "" then .ok [] else attemptSend gw (.text phone text)
      else if ty == "audio" || ty == "clip" then
        let url := jsTrim (replacePlaceholders p.contenido lead)
        if url == "" then .ok [] else attemptSend gw (.clip phone url)
      else if ty == "imagen" then
        let url := jsTrim (replacePlaceholders p.contenido lead)
        if url != "" && sock then attemptSend gw (.image phone url)
        else if url != "" then attemptSend gw (.text phone url)
        else .ok []
      else if ty == "video" then
        let url := jsTrim (replacePlaceholders p.contenido lead)
        if url != "" && sock then attemptSend gw (.video phone url)
        else if url != "" then attemptSend gw (.text phone url)
        else .ok []
      else
        let text := jsTrim (replacePlaceholders p.contenido lead)
        if text == "" then .ok [] else attemptSend gw (.text phone text)

/-- The where-clauses of the processQueue query: status pending, due at or
before now, optional shard equality. -/
def dueFilter (now : Int) (shard : Option Nat) (t : SequenceTask) : Bool :=
  t.status == "pending" && decide (t.dueAt ≤ now) &&
    (match shard with | none => true | some s => t.shard == s)

/-- Stable insertion of a task into a dueAt-sorted list. -/
def insertByDue (t : SequenceTask) : List SequenceTask → List SequenceTask
  | [] => [t]
  | x :: xs => if t.dueAt ≤ x.dueAt then t :: x :: xs else x :: insertByDue t xs

/-- The orderBy dueAt ascending of the processQueue query. -/
def sortByDue : List SequenceTask → List SequenceTask
  | [] => []
  | x :: xs => insertByDue x (sortByDue xs)

/-- The documents returned by the processQueue query: pending tasks due at or
before now, optionally shard-filtered, ordered by dueAt, capped at the
batch size. -/
def selectDue (queue : List SequenceTask) (now : Int) (batchSize : Nat)
    (shard : Option Nat) : List SequenceTask :=
  (sortByDue (queue.filter (dueFilter now shard))).take batchSize

/-- Whether a delivery attempt succeeded. -/
def deliveryOk : Except String (List SendAction) → Bool
  | .ok _ => true
  | .error _ => false

/-- Delivery outcome of one task, evaluated against the leads snapshot the
batch started from. -/
def taskOutcome (gw : SendAction → Option String) (sock : Bool)
    (leads : List Lead) (t : SequenceTask) : Except String (List SendAction) :=
  deliverPayload gw sock leads t.leadId t.payload

/-- The single-document update a processed task receives: sent on success,
error with the failure message otherwise; processedAt is stamped either
way. -/
def processedTask (gw : SendAction → Option String) (sock : Bool)
    (leads : List Lead) (now : Int) (t : SequenceTask) : SequenceTask :=
  match taskOutcome gw sock leads t with
  | .ok _ => { t with status := "sent", processedAt := some now }
  | .error m =>
    { t with status := "error", processedAt := some now, errorMsg := some m }

/-- Per-document effect of the batch on the queue collection: exactly the
selected documents are updated. -/
def applyOutcomes (gw : SendAction → Option String) (sock : Bool)
    (leads : List Lead) (now : Int) (sel : List SequenceTask)
    (t : SequenceTask) : SequenceTask :=
  if sel.any (fun s => s.id == t.id) then processedTask gw sock leads now t else t

/-- Per-document effect of the batch on the leads collection: leads of
successfully delivered tasks get lastMessageAt stamped. -/
def applyLeadStamp (gw : SendAction → Option String) (sock : Bool)
    (leads : List Lead) (now : Int) (sel : List SequenceTask) (L : Lead) : Lead :=
  if sel.any (fun s => s.leadId == L.id && deliveryOk (taskOutcome gw sock leads s))
  then { L with lastMessageAt := some now }
  else L

/-- queue.js processQueue: select the due batch, attempt every delivery
concurrently against the starting snapshot, mark each selected task sent or
error with its processing time, stamp lastMessageAt on leads of successful
tasks, and return the batch size processed. -/
def processQueue (gw : SendAction → Option String) (sock : Bool) (now : Int)
    (batchSize : Nat) (shard : Option Nat) (st : Store) : Store × Nat :=
  let sel := selectDue st.queue now batchSize shard
  ({ st with
      queue := st.queue.map (applyOutcomes gw sock st.leads now sel),
      leads := st.leads.map (applyLeadStamp gw sock st.leads now sel) },
    sel.length)

/- ============ scheduling and cancelling sequences (queue.js) ============ -/

/-- One step of a sequence definition; delay is in minutes. -/
structure SeqMessage where
  type : String
  contenido : String
  delay : Nat
deriving Repr, DecidableEq

/-- A document of the secuencias collection.  An absent active flag counts as
active (the source tests active strictly against false). -/
structure SeqDef where
  docId : String
  trigger : String
  active : Option Bool
  messages : List SeqMessage
deriving Repr, DecidableEq

/-- Resolution of a sequence definition: by document id first, falling back
to the first document whose trigger field matches. -/
def findSeq (defs : List SeqDef) (trigger : String) : Option SeqDef :=
  match defs.find? (fun d => d.docId == trigger) with
  | some d => some d
  | none => defs.find? (fun d => d.trigger == trigger)

/-- One queued task built for step i of a sequence. -/
def mkTask (leadId trigger : String) (startMs : Int) (shardOf : Nat → Nat)
    (baseId : Nat) (i : Nat) (m : SeqMessage) : SequenceTask :=
  { id := baseId + i, leadId := leadId, trigger := trigger, idx := i,
    payload := { type := if m.type == "" then "texto" else m.type,
                 contenido := m.contenido },
    dueAt := startMs + (m.delay : Int) * 60000,
    status := "pending", shard := shardOf i }

/-- The batch of tasks written for the whole message list, indexed from i. -/
def mkTasks (leadId trigger : String) (startMs : Int) (shardOf : Nat → Nat)
    (baseId : Nat) : Nat → List SeqMessage → List SequenceTask
  | _, [] => []
  | i, m :: ms =>
    mkTask leadId trigger startMs shardOf baseId i m ::
      mkTasks leadId trigger startMs shardOf baseId (i + 1) ms

/-- queue.js scheduleSequenceForLead: resolve the definition, return 0 on a
missing, inactive or empty one, otherwise append one pending task per
message (dueAt = start + delay minutes) and mark the lead as having active
sequences.  The shard draw is an oracle parameter. -/
def scheduleSequenceForLead (defs : List SeqDef) (shardOf : Nat → Nat)
    (leadId trigger : String) (startMs : Int) (st : Store) : Store × Nat :=
  match findSeq defs trigger with
  | none => (st, 0)
  | some d =>
    if d.active == some false || d.messages.isEmpty then (st, 0)
    else
      let tasks := mkTasks leadId trigger startMs shardOf st.nextId 0 d.messages
      ({ st with
          queue := st.queue ++ tasks,
          nextId := st.nextId + d.messages.length,
          leads := st.leads.map (fun L =>
            if L.id == leadId then { L with hasActiveSequences := true } else L) },
        d.messages.length)

/-- The deletion predicate of cancelSequences: a pending task of this lead
whose trigger is in the cancelled set. -/
def cancelPred (leadId : String) (triggers : List String) (t : SequenceTask) : Bool :=
  t.leadId == leadId && t.status == "pending" && triggers.contains t.trigger

/-- queue.js cancelSequences: no-op on a falsy lead id or an empty trigger
list, otherwise delete every pending task of the lead whose trigger is in
the list and return how many were deleted. -/
def cancelSequences (leadId : String) (triggers : List String) (st : Store) :
    Store × Nat :=
  if leadId == "" || triggers.isEmpty then (st, 0)
  else
    ({ st with queue := st.queue.filter (fun t => !(cancelPred leadId triggers t)) },
      st.queue.countP (fun t => cancelPred leadId triggers t))

/- ================== production pipeline (scheduler.js) ================== -/

/-- The listen sub-document of a production job. -/
structure Listen where
  token : Option String := none
  playCount : Nat := 0
  maxPlays : Nat := 2
  disabled : Bool := false
  halfHeard : Bool := false
deriving Repr, DecidableEq

/-- One document of the musica collection. -/
structure MusicJob where
  id : Nat
  leadId : String := ""
  leadPhone : String := ""
  status : String
  lyrics : Option String := none
  stylePrompt : Option String := none
  taskId : Option String := none
  fullUrl : Option String := none
  clipUrl : Option String := none
  listenUrl : Option String := none
  listen : Listen := {}
  generatedAt : Option Int := none
  lyricsGeneratedAt : Option Int := none
  sentAt : Option Int := none
  updatedAt : Option Int := none
  errorMsg : Option String := none
deriving Repr, DecidableEq

/-- Update of the single document with the given id. -/
def updateById (k : Nat) (g : MusicJob → MusicJob) (jobs : List MusicJob) :
    List MusicJob :=
  jobs.map (fun x => if x.id == k then g x else x)

/-- scheduler.js generarLetraParaMusica: take the first job without lyrics,
ask the text provider (the oracle; none models a thrown call or missing
content), and on a nonempty trimmed reply store the lyrics and advance to
the prompt stage.  The denormalized copy onto the lead is not modelled. -/
def generarLetraParaMusica (letraOracle : MusicJob → Option String) (now : Int)
    (jobs : List MusicJob) : List MusicJob :=
  match jobs.find? (fun j => j.status == "Sin letra") with
  | none => jobs
  | some j =>
    match letraOracle j with
    | none => jobs
    | some s =>
      if jsTrim s == "" then jobs
      else
        updateById j.id
          (fun x => { x with lyrics := some (jsTrim s), status := "Sin prompt",
                              lyricsGeneratedAt := some now }) jobs

/-- scheduler.js generarPromptParaMusica: take the first job without a style
prompt; on a provider reply store the trimmed prompt and advance. -/
def generarPromptParaMusica (promptOracle : MusicJob → Option String)
    (jobs : List MusicJob) : List MusicJob :=
  match jobs.find? (fun j => j.status == "Sin prompt") with
  | none => jobs
  | some j =>
    match promptOracle j with
    | none => jobs
    | some s =>
      updateById j.id
        (fun x => { x with stylePrompt := some (jsTrim s), status := "Sin música" }) jobs

/-- scheduler.js generarMusicaConSuno: take the first job awaiting
generation, mark it generation-pending with its start time, then launch the
external task; on success store the task id, on failure record the error. -/
def generarMusicaConSuno (sunoOracle : MusicJob → Except String String) (now : Int)
    (jobs : List MusicJob) : List MusicJob :=
  match jobs.find? (fun j => j.status == "Sin música") with
  | none => jobs
  | some j =>
    updateById j.id
      (fun x =>
        match sunoOracle j with
        | .ok tid =>
          { x with status := "Procesando música", generatedAt := some now,
                   taskId := some tid }
        | .error m =>
          { x with status := "Error música", generatedAt := some now,
                   errorMsg := some m, updatedAt := some now }) jobs

/-- Per-job effect of scheduler.js procesarClips: a job with ready audio and
a full URL is trimmed, watermarked and uploaded (each step an oracle keyed
by job id), landing in the send stage or in the matching error stage. -/
def procesarClipsJob (trimOk mixOk upOk : Nat → Bool) (urlOf : Nat → String)
    (j : MusicJob) : MusicJob :=
  if j.status == "Audio listo" then
    match j.fullUrl with
    | none => j
    | some _ =>
      if !trimOk j.id then { j with status := "Error clip" }
      else if !mixOk j.id then { j with status := "Error watermark" }
      else if !upOk j.id then { j with status := "Error upload clip" }
      else { j with status := "Enviar música", clipUrl := some (urlOf j.id) }
  else j

/-- scheduler.js procesarClips: iterates over every job with ready audio (the
query has no limit clause). -/
def procesarClips (trimOk mixOk upOk : Nat → Bool) (urlOf : Nat → String)
    (jobs : List MusicJob) : List MusicJob :=
  jobs.map (procesarClipsJob trimOk mixOk upOk urlOf)

/-- Per-job effect of scheduler.js enviarMusicaPorWhatsApp: a job in the send
stage with a phone and lyrics gets the lyrics text and the listen link; on
send success it is marked sent with its listen URL, on a send failure it is
marked with the error.  The lead tag union is not modelled. -/
def enviarJob (sendOracle : MusicJob → Option String) (now : Int) (j : MusicJob) :
    MusicJob :=
  if j.status == "Enviar música" then
    if j.leadPhone == "" || j.lyrics.getD "" == "" then j
    else
      match sendOracle j with
      | none =>
        { j with status := "Enviada",
                 listenUrl := some ("https://cantalab.com/escuchar/" ++ j.leadPhone),
                 sentAt := some now }
      | some e => { j with status := "Error música", errorMsg := some e }
  else j

/-- scheduler.js enviarMusicaPorWhatsApp: iterates over every job in the send
stage (the query has no limit clause). -/
def enviarMusicaPorWhatsApp (sendOracle : MusicJob → Option String) (now : Int)
    (jobs : List MusicJob) : List MusicJob :=
  jobs.map (enviarJob sendOracle now)

/-- scheduler.js retryStuckMusic: every generation-pending job whose start
time is at or before now minus the threshold is reset to awaiting
generation, with its external task id and error message deleted. -/
def retryStuckMusic (now : Int) (thresholdMin : Nat) (jobs : List MusicJob) :
    List MusicJob :=
  jobs.map (fun j =>
    if j.status == "Procesando música" &&
        (match j.generatedAt with
         | some g => decide (g ≤ now - (thresholdMin : Int) * 60000)
         | none => false) then
      { j with status := "Sin música", taskId := none, errorMsg := none,
               updatedAt := some now }
    else j)

/- ============== clip send retry loop (whatsappService.js) ============== -/

/-- Infix test on character lists, for the Timed Out check. -/
def hasSub (needle : List Char) : List Char → Bool
  | [] => needle.isEmpty
  | c :: cs => needle.isPrefixOf (c :: cs) || hasSub needle cs

/-- The timeout test of sendClipMessage: the error message includes the
gateway timeout marker. -/
def includesTimedOut (s : String) : Bool := hasSub "Timed Out".data s.data

/-- Observable outcome of sendClipMessage: the result, how many send attempts
were made, and the backoff sleeps performed between attempts. -/
structure ClipOutcome where
  result : Except String Nat
  attempts : Nat
  delays : List Nat
deriving Repr

/-- whatsappService.js sendClipMessage: up to three send attempts; a
non-timeout error, or the third attempt failing, is surfaced; a timeout on
an earlier attempt sleeps 2000 times the attempt number and retries.  The
oracle gives the gateway outcome of each numbered attempt. -/
def sendClipMessage (oracle : Nat → Option String) : ClipOutcome :=
  match oracle 1 with
  | none => ⟨.ok 1, 1, []⟩
  | some e1 =>
    if !includesTimedOut e1 then ⟨.error e1, 1, []⟩
    else
      match oracle 2 with
      | none => ⟨.ok 2, 2, [2000]⟩
      | some e2 =>
        if !includesTimedOut e2 then ⟨.error e2, 2, [2000]⟩
        else
          match oracle 3 with
          | none => ⟨.ok 3, 3, [2000, 4000]⟩
          | some e3 => ⟨.error e3, 3, [2000, 4000]⟩

/- ============ listen-progress endpoint (server.js) ============ -/

/-- The whole state the progress endpoint touches: the musica collection and
the queue store. -/
structure Sys where
  jobs : List MusicJob
  store : Store
deriving Repr, DecidableEq

/-- server.js POST /api/music/progress: find the job by listen token, merge
listen.halfHeard := true, and, whenever the job has a lead, cancel the
MusicaLead sequence and schedule LeadSeguimiento — on every invocation,
with no read of the half-heard flag.  Returns whether the request was
answered ok. -/
def musicProgress (defs : List SeqDef) (shardOf : Nat → Nat) (now : Int)
    (token : String) (sys : Sys) : Sys × Bool :=
  if token == "" then (sys, false)
  else
    match sys.jobs.find? (fun j => j.listen.token == some token) with
    | none => (sys, false)
    | some j =>
      let jobs2 := sys.jobs.map (fun x =>
        if x.id == j.id then { x with listen := { x.listen with halfHeard := true } }
        else x)
      if j.leadId == "" then ({ jobs := jobs2, store := sys.store }, true)
      else
        let st1 := (cancelSequences j.leadId ["MusicaLead"] sys.store).1
        let st2 :=
          (scheduleSequenceForLead defs shardOf j.leadId "LeadSeguimiento" now st1).1
        ({ jobs := jobs2, store := st2 }, true)

/- ======================= concrete fixtures ======================= -/

/-- A gateway oracle on which every send succeeds. -/
def gwOk : SendAction → Option String := fun _ => none

/-- Lead fixture used by witnesses. -/
def leadW : Lead :=
  { id := "lead1", nombre := "Ana María López", telefono := "+52 55 1234 5678",
    fields := [("ciudad", "CDMX")] }

/-- Two pending tasks, both already due, used by the C2 counterexample and
the selection witness. -/
def taskA : SequenceTask :=
  { id := 1, leadId := "lead1", trigger := "NuevoLead", idx := 0,
    payload := { type := "texto", contenido := "hola" },
    dueAt := 0, status := "pending", shard := 3 }

def taskB : SequenceTask :=
  { id := 2, leadId := "lead1", trigger := "NuevoLead", idx := 1,
    payload := { type := "texto", contenido := "sigues ahi" },
    dueAt := 5, status := "pending", shard := 7 }

def storeW : Store := { queue := [taskA, taskB], leads := [leadW], nextId := 10 }

/-- A constant shard draw used by witnesses. -/
def shardOf0 : Nat → Nat := fun _ => 0

/-- Sequence definition fixture: a one-step follow-up sequence. -/
def seqDefW : SeqDef :=
  { docId := "LeadSeguimiento", trigger := "LeadSeguimiento", active := none,
    messages := [{ type := "texto", contenido := "te gusto", delay := 0 }] }

def defsW : List SeqDef := [seqDefW]

/-- Production job fixture holding a listen token. -/
def jobTok : MusicJob :=
  { id := 1, leadId := "lead1", leadPhone := "5215512345678", status := "Enviada",
    listen := { token := some "tok" } }

/-- One pending MusicaLead task of the same lead, cancelled by the progress
endpoint. -/
def taskML : SequenceTask :=
  { id := 3, leadId := "lead1", trigger := "MusicaLead", idx := 0,
    payload := { type := "texto", contenido := "clip" },
    dueAt := 99, status := "pending", shard := 0 }

def sysW : Sys :=
  { jobs := [jobTok],
    store := { queue := [taskML], leads := [leadW], nextId := 20 } }

/-- Two jobs with ready audio, used by the C7 counterexample. -/
def jobAL1 : MusicJob := { id := 1, status := "Audio listo", fullUrl := some "u1" }

def jobAL2 : MusicJob := { id := 2, status := "Audio listo", fullUrl := some "u2" }

/-- Job fixtures for the stage-advance witness. -/
def jobSL : MusicJob := { id := 5, status := "Sin letra" }

def jobStuck : MusicJob :=
  { id := 7, status := "Procesando música", taskId := some "t-7",
    errorMsg := some "boom", generatedAt := some 0 }

/- ======================= renderer lemmas ======================= -/

theorem takeWord_append : ∀ l : List Char, (takeWord l).1 ++ (takeWord l).2 = l := by
  intro l
  induction l with
  | nil => rfl
  | cons c cs ih =>
    by_cases h : isWordChar c = true
    · simp [takeWord, h, ih]
    · simp [takeWord, h]

theorem takeWord_snd_length (l : List Char) : (takeWord l).2.length ≤ l.length := by
  conv_rhs => rw [← takeWord_append l]
  simp

theorem matchToken_shrink :
    ∀ (l : List Char) (p : List Char × List Char), matchToken l = some p →
      p.2.length < l.length := by
  intro l p h
  match l with
  | [] => simp [matchToken] at h
  | [c] => simp [matchToken] at h
  | c1 :: c2 :: rest =>
    simp only [matchToken] at h
    split at h
    · split at h
      · exact absurd h (by simp)
      · split at h
        · rename_i d1 d2 rest2 heq
          split at h
          · cases h
            have h1 : (takeWord rest).2.length ≤ rest.length := takeWord_snd_length rest
            rw [heq] at h1
            simp at h1
            simp
            omega
          · exact absurd h (by simp)
        · exact absurd h (by simp)
    · exact absurd h (by simp)

theorem renderGo_congr (f : String → String) :
    ∀ (n : Nat) (l : List Char), l.length ≤ n → ∀ m, l.length ≤ m →
      renderGo f n l = renderGo f m l := by
  intro n
  induction n with
  | zero =>
    intro l hl m _
    have : l = [] := List.length_eq_zero.mp (Nat.le_zero.mp hl)
    subst this
    cases m <;> rfl
  | succ n ih =>
    intro l hl m hm
    match l with
    | [] => cases m <;> rfl
    | c :: cs =>
      match m with
      | 0 => simp at hm
      | m + 1 =>
        simp only [renderGo]
        cases hmt : matchToken (c :: cs) with
        | some p =>
          have hlt := matchToken_shrink _ _ hmt
          simp only [List.length_cons] at hl hm hlt
          have h1 : p.2.length ≤ n := by omega
          have h2 : p.2.length ≤ m := by omega
          dsimp only
          rw [ih p.2 h1 m h2]
        | none =>
          simp only [List.length_cons] at hl hm
          have h1 : cs.length ≤ n := by omega
          have h2 : cs.length ≤ m := by omega
          dsimp only
          rw [ih cs h1 m h2]

theorem renderChars_no_match (f : String → String) (c : Char) (cs : List Char)
    (h : matchToken (c :: cs) = none) :
    renderChars f (c :: cs) = c :: renderChars f cs := by
  simp only [renderChars, List.length_cons, renderGo, h]

theorem renderChars_match (f : String → String) (c : Char) (cs : List Char)
    (p : List Char × List Char) (h : matchToken (c :: cs) = some p) :
    renderChars f (c :: cs) = (f (String.mk p.1)).data ++ renderChars f p.2 := by
  have hlt := matchToken_shrink _ _ h
  simp only [List.length_cons] at hlt
  simp only [renderChars, List.length_cons, renderGo, h]
  rw [renderGo_congr f cs.length p.2 (by omega) p.2.length (by omega)]

theorem matchToken_not_brace (c : Char) (cs : List Char) (h : c ≠ '{') :
    matchToken (c :: cs) = none := by
  match cs with
  | [] => simp [matchToken]
  | d :: ds => simp [matchToken, h]

theorem renderChars_append_of_no_brace (f : String → String) :
    ∀ (l1 l2 : List Char), (∀ c ∈ l1, c ≠ '{') →
      renderChars f (l1 ++ l2) = l1 ++ renderChars f l2 := by
  intro l1
  induction l1 with
  | nil => intro l2 _; rfl
  | cons c cs ih =>
    intro l2 h
    have hc : c ≠ '{' := h c (by simp)
    match hl : cs ++ l2 with
    | [] =>
      have h2 : cs = [] ∧ l2 = [] := List.append_eq_nil.mp hl
      rw [List.cons_append, hl, renderChars_no_match f c [] (matchToken_not_brace c [] hc)]
      rw [h2.1, h2.2]
      rfl
    | d :: ds =>
      rw [List.cons_append, hl,
        renderChars_no_match f c (d :: ds) (matchToken_not_brace c (d :: ds) hc), ← hl,
        ih l2 (fun x hx => h x (by simp [hx]))]
      simp

theorem takeWord_words :
    ∀ (w : List Char) (d : Char) (t : List Char),
      (∀ c ∈ w, isWordChar c = true) → isWordChar d = false →
      takeWord (w ++ d :: t) = (w, d :: t) := by
  intro w
  induction w with
  | nil => intro d t _ hd; simp [takeWord, hd]
  | cons c cs ih =>
    intro d t hw hd
    have hc : isWordChar c = true := hw c (by simp)
    simp only [List.cons_append, takeWord, hc, if_pos]
    simp [ih d t (fun x hx => hw x (by simp [hx])) hd]

theorem matchToken_token (key suf : List Char) (hk : key ≠ [])
    (hw : ∀ c ∈ key, isWordChar c = true) :
    matchToken ('{' :: '{' :: (key ++ '}' :: '}' :: suf)) = some (key, suf) := by
  have h1 : takeWord (key ++ '}' :: '}' :: suf) = (key, '}' :: '}' :: suf) :=
    takeWord_words key '}' ('}' :: suf) hw (by decide)
  simp [matchToken, h1, hk]

theorem renderChars_token (f : String → String) (key suf : List Char)
    (hk : key ≠ []) (hw : ∀ c ∈ key, isWordChar c = true) :
    renderChars f ('{' :: '{' :: (key ++ '}' :: '}' :: suf)) =
      (f (String.mk key)).data ++ renderChars f suf := by
  exact renderChars_match f '{' ('{' :: (key ++ '}' :: '}' :: suf)) (key, suf)
    (matchToken_token key suf hk hw)

theorem replacePlaceholders_eq_render (t : String) (lead : Lead) :
    replacePlaceholders t lead = String.mk (renderChars (leadValue lead) t.data) := by
  unfold replacePlaceholders
  by_cases h : t = ""
  · subst h; rfl
  · simp [h]

theorem string_mk_append (l1 l2 : List Char) :
    String.mk (l1 ++ l2) = String.mk l1 ++ String.mk l2 := rfl

theorem string_mk_data (s : String) : String.mk s.data = s := rfl

theorem string_append_assoc (a b c : String) : a ++ b ++ c = a ++ (b ++ c) := by
  cases a; cases b; cases c
  show String.mk _ = String.mk _
  simp

/-- Claim C10: the template renderer replaces every token of the template;
the nombre key yields the first whitespace-delimited token of the name of
the lead, the telefono key yields the digits-only phone, any other key
yields the value of that lead field or the empty string when it is
missing; the renderer is a pure total function and renders the empty
template to the empty string. -/
theorem replacePlaceholders_spec (lead : Lead) (pre key suf : String)
    (hpre : ∀ c ∈ pre.data, c ≠ '{') (hkey : key ≠ "")
    (hw : ∀ c ∈ key.data, isWordChar c = true) :
    replacePlaceholders "" lead = "" ∧
    replacePlaceholders (pre ++ "\x7b\x7b" ++ key ++ "\x7d\x7d" ++ suf) lead =
      pre ++ (if key = "telefono" then digitsOnly lead.telefono
              else if key = "nombre" then firstName lead.nombre
              else (lookupField lead.fields key).getD "") ++
        replacePlaceholders suf lead := by
  constructor
  · rfl
  · have hkd : key.data ≠ [] := by
      intro h
      exact hkey (by cases key; simp_all)
    have hdata : (pre ++ "\x7b\x7b" ++ key ++ "\x7d\x7d" ++ suf).data =
        pre.data ++ ('{' :: '{' :: (key.data ++ '}' :: '}' :: suf.data)) := by
      show pre.data ++ "\x7b\x7b".data ++ key.data ++ "\x7d\x7d".data ++ suf.data = _
      simp
    rw [replacePlaceholders_eq_render, hdata,
      renderChars_append_of_no_brace _ _ _ hpre,
      renderChars_token _ key.data suf.data hkd hw, string_mk_data,
      replacePlaceholders_eq_render suf lead]
    have hval : leadValue lead key =
        (if key = "telefono" then digitsOnly lead.telefono
         else if key = "nombre" then firstName lead.nombre
         else (lookupField lead.fields key).getD "") := by
      simp [leadValue]
    rw [hval]
    rw [string_mk_append, string_mk_append, string_mk_data, string_mk_data,
      string_append_assoc]

/-- Witness for C10 at a concrete template, key and lead. -/
theorem replacePlaceholders_spec_witness :
    replacePlaceholders "" leadW = "" ∧
    replacePlaceholders ("Hola " ++ "\x7b\x7b" ++ "foo" ++ "\x7d\x7d" ++ "!") leadW =
      "Hola " ++ (if "foo" = "telefono" then digitsOnly leadW.telefono
                  else if "foo" = "nombre" then firstName leadW.nombre
                  else (lookupField leadW.fields "foo").getD "") ++
        replacePlaceholders "!" leadW :=
  replacePlaceholders_spec leadW "Hola " "foo" "!" (by decide) (by decide) (by decide)

/- ======================= queue selection lemmas ======================= -/

theorem insertByDue_perm (t : SequenceTask) :
    ∀ l : List SequenceTask, (insertByDue t l).Perm (t :: l) := by
  intro l
  induction l with
  | nil => rfl
  | cons x xs ih =>
    by_cases h : t.dueAt ≤ x.dueAt
    · simp [insertByDue, h]
    · simp only [insertByDue, h, if_neg, not_false_iff]
      exact (ih.cons x).trans (List.Perm.swap t x xs)

theorem sortByDue_perm : ∀ l : List SequenceTask, (sortByDue l).Perm l := by
  intro l
  induction l with
  | nil => rfl
  | cons x xs ih => exact (insertByDue_perm x (sortByDue xs)).trans (ih.cons x)

theorem insertByDue_pairwise (t : SequenceTask) (l : List SequenceTask)
    (h : l.Pairwise (fun a b => a.dueAt ≤ b.dueAt)) :
    (insertByDue t l).Pairwise (fun a b => a.dueAt ≤ b.dueAt) := by
  induction l with
  | nil => simp [insertByDue]
  | cons x xs ih =>
    by_cases hle : t.dueAt ≤ x.dueAt
    · simp only [insertByDue, hle, if_pos]
      refine List.Pairwise.cons ?_ h
      intro b hb
      rcases List.mem_cons.mp hb with hb2 | hb2
      · subst hb2; exact hle
      · exact le_trans hle (List.rel_of_pairwise_cons h hb2)
    · simp only [insertByDue, hle, if_neg, not_false_iff]
      refine List.Pairwise.cons ?_ (ih (List.Pairwise.of_cons h))
      intro b hb
      rcases List.mem_cons.mp ((insertByDue_perm t xs).mem_iff.mp hb) with hb2 | hb2
      · subst hb2; exact le_of_not_le hle
      · exact List.rel_of_pairwise_cons h hb2

theorem sortByDue_pairwise :
    ∀ l : List SequenceTask, (sortByDue l).Pairwise (fun a b => a.dueAt ≤ b.dueAt) := by
  intro l
  induction l with
  | nil => simp [sortByDue]
  | cons x xs ih => exact insertByDue_pairwise x (sortByDue xs) ih

theorem mem_selectDue {q : List SequenceTask} {now : Int} {bs : Nat}
    {shard : Option Nat} {t : SequenceTask} (h : t ∈ selectDue q now bs shard) :
    dueFilter now shard t = true ∧ t ∈ q := by
  have h1 : t ∈ sortByDue (q.filter (dueFilter now shard)) :=
    (List.take_sublist bs _).subset h
  have h2 : t ∈ q.filter (dueFilter now shard) :=
    (sortByDue_perm _).mem_iff.mp h1
  exact ⟨(List.mem_filter.mp h2).2, (List.mem_filter.mp h2).1⟩

theorem selectDue_length (q : List SequenceTask) (now : Int) (bs : Nat)
    (shard : Option Nat) : (selectDue q now bs shard).length ≤ bs := by
  simp [selectDue]

theorem selectDue_pairwise (q : List SequenceTask) (now : Int) (bs : Nat)
    (shard : Option Nat) :
    (selectDue q now bs shard).Pairwise (fun a b => a.dueAt ≤ b.dueAt) :=
  (sortByDue_pairwise _).sublist (List.take_sublist bs _)

theorem selectDue_all {q : List SequenceTask} {now : Int} {bs : Nat}
    {shard : Option Nat}
    (h : (q.filter (dueFilter now shard)).length ≤ bs) :
    ∀ t ∈ q, dueFilter now shard t = true → t ∈ selectDue q now bs shard := by
  intro t ht hf
  have hmem : t ∈ q.filter (dueFilter now shard) := List.mem_filter.mpr ⟨ht, hf⟩
  have hlen : (sortByDue (q.filter (dueFilter now shard))).length ≤ bs := by
    rwa [(sortByDue_perm _).length_eq]
  unfold selectDue
  rw [List.take_of_length_le hlen]
  exact (sortByDue_perm _).mem_iff.mpr hmem

/-- Claim C2 (amended): processQueue selects only pending tasks due at or
before now, at most batchSize of them, ordered by dueAt ascending and
restricted to the requested shard, so no future task is ever dispatched;
and a re-invocation with an unchanged clock dispatches nothing whenever
the first run selected every due pending task, in particular whenever the
due pending tasks numbered at most batchSize. -/
theorem processQueue_selection_spec (gw : SendAction → Option String) (sock : Bool)
    (now : Int) (batchSize : Nat) (shard : Option Nat) (st : Store) :
    (∀ t ∈ selectDue st.queue now batchSize shard,
       t.status = "pending" ∧ t.dueAt ≤ now ∧
       (∀ s, shard = some s → t.shard = s) ∧ t ∈ st.queue) ∧
    (selectDue st.queue now batchSize shard).length ≤ batchSize ∧
    (selectDue st.queue now batchSize shard).Pairwise
      (fun a b => a.dueAt ≤ b.dueAt) ∧
    ((st.queue.filter (dueFilter now shard)).length ≤ batchSize →
      (processQueue gw sock now batchSize shard
        ((processQueue gw sock now batchSize shard st).1)).2 = 0) := by
  refine ⟨?_, selectDue_length _ _ _ _, selectDue_pairwise _ _ _ _, ?_⟩
  · intro t ht
    obtain ⟨hf, hq⟩ := mem_selectDue ht
    simp only [dueFilter, Bool.and_eq_true, beq_iff_eq, decide_eq_true_eq] at hf
    refine ⟨hf.1.1, hf.1.2, ?_, hq⟩
    intro s hs
    rw [hs] at hf
    simpa using hf.2
  · intro hle
    have hempty :
        ((processQueue gw sock now batchSize shard st).1).queue.filter
          (dueFilter now shard) = [] := by
      rw [List.filter_eq_nil_iff]
      intro x hx
      simp only [processQueue, List.mem_map] at hx
      obtain ⟨y, hy, hxy⟩ := hx
      by_cases hc :
          (selectDue st.queue now batchSize shard).any (fun s => s.id == y.id) = true
      · simp only [applyOutcomes, hc, if_true] at hxy
        cases houtcome : taskOutcome gw sock st.leads y with
        | ok v =>
          simp only [processedTask, houtcome] at hxy
          subst hxy; simp [dueFilter]
        | error m =>
          simp only [processedTask, houtcome] at hxy
          subst hxy; simp [dueFilter]
      · rw [Bool.not_eq_true] at hc
        simp only [applyOutcomes, hc, Bool.false_eq_true, if_false] at hxy
        subst hxy
        intro hdf
        have hsel : y ∈ selectDue st.queue now batchSize shard :=
          selectDue_all hle y hy hdf
        have hany : (selectDue st.queue now batchSize shard).any
            (fun s => s.id == y.id) = true :=
          List.any_eq_true.mpr ⟨y, hsel, by simp⟩
        rw [hany] at hc
        cases hc
    show (selectDue ((processQueue gw sock now batchSize shard st).1).queue
      now batchSize shard).length = 0
    rw [selectDue, hempty]
    simp [sortByDue]

/-- Counterexample to claim C2 as frozen: with two due pending tasks and a
batch size of one, the first completed run dispatches one task and an
immediate re-invocation with an unchanged clock dispatches another one,
not nothing. -/
theorem processQueue_reinvocation_counterexample :
    (processQueue gwOk true 5 1 none storeW).2 = 1 ∧
    (processQueue gwOk true 5 1 none
      ((processQueue gwOk true 5 1 none storeW).1)).2 = 1 := by
  constructor
  · rfl
  · rfl

/-- Witness for C2 (amended) at a concrete store: both due tasks fit in the
batch, so the re-invocation dispatches nothing. -/
theorem processQueue_selection_spec_witness :
    (processQueue gwOk true 5 5 none
      ((processQueue gwOk true 5 5 none storeW).1)).2 = 0 :=
  (processQueue_selection_spec gwOk true 5 5 none storeW).2.2.2 (by decide)

/- ======================= find-by-id lemmas ======================= -/

theorem find?_map_pred_eq {α : Type} (φ : α → α) (p : α → Bool)
    (hp : ∀ x, p (φ x) = p x) :
    ∀ l : List α, (l.map φ).find? p = (l.find? p).map φ := by
  intro l
  induction l with
  | nil => rfl
  | cons x xs ih =>
    by_cases hx : p x = true
    · simp [List.find?_cons, hp, hx]
    · rw [Bool.not_eq_true] at hx
      simp [List.find?_cons, hp, hx, ih]

theorem find?_beq_of_nodup {α β : Type} [BEq β] [LawfulBEq β] (f : α → β) :
    ∀ l : List α, (l.map f).Nodup → ∀ t ∈ l,
      l.find? (fun x => f x == f t) = some t := by
  intro l
  induction l with
  | nil => intro _ t ht; cases ht
  | cons x xs ih =>
    intro hnd t ht
    simp only [List.map_cons, List.nodup_cons] at hnd
    rcases List.mem_cons.mp ht with h1 | h1
    · subst h1
      simp [List.find?_cons]
    · have hne : (f x == f t) = false := by
        rw [beq_eq_false_iff_ne]
        intro hfe
        exact hnd.1 (hfe ▸ List.mem_map_of_mem f h1)
      simp only [List.find?_cons, hne]
      exact ih hnd.2 t h1

/-- Claim C3: every selected task that delivers successfully is recorded
sent with its processing time and its lead gets lastMessageAt stamped;
every selected task whose delivery throws is recorded error with the
failure message and its processing time; the recorded outcome of a task is
a function of that task alone, so one failure cannot change another
outcome in the same batch; the call returns the count of selected tasks;
and a processed task is never selected by any later invocation. -/
theorem processQueue_task_outcomes (gw : SendAction → Option String) (sock : Bool)
    (now : Int) (batchSize : Nat) (shard : Option Nat) (st : Store)
    (hq : (st.queue.map (fun t => t.id)).Nodup)
    (hl : (st.leads.map (fun L => L.id)).Nodup) :
    (processQueue gw sock now batchSize shard st).2 =
      (selectDue st.queue now batchSize shard).length ∧
    ∀ t ∈ selectDue st.queue now batchSize shard,
      (∀ v, taskOutcome gw sock st.leads t = .ok v →
        ((processQueue gw sock now batchSize shard st).1).queue.find?
            (fun x => x.id == t.id) =
          some { t with status := "sent", processedAt := some now } ∧
        ∀ L ∈ st.leads, L.id = t.leadId →
          ((processQueue gw sock now batchSize shard st).1).leads.find?
              (fun x => x.id == t.leadId) =
            some { L with lastMessageAt := some now }) ∧
      (∀ m, taskOutcome gw sock st.leads t = .error m →
        ((processQueue gw sock now batchSize shard st).1).queue.find?
            (fun x => x.id == t.id) =
          some { t with status := "error", processedAt := some now,
                        errorMsg := some m }) ∧
      (∀ now2 bs2 sh2 u,
        u ∈ selectDue ((processQueue gw sock now batchSize shard st).1).queue
            now2 bs2 sh2 → u.id ≠ t.id) := by
  refine ⟨rfl, ?_⟩
  intro t ht
  have hqueue : ((processQueue gw sock now batchSize shard st).1).queue =
      st.queue.map (applyOutcomes gw sock st.leads now
        (selectDue st.queue now batchSize shard)) := rfl
  have hleads : ((processQueue gw sock now batchSize shard st).1).leads =
      st.leads.map (applyLeadStamp gw sock st.leads now
        (selectDue st.queue now batchSize shard)) := rfl
  have hidpres : ∀ x, (applyOutcomes gw sock st.leads now
      (selectDue st.queue now batchSize shard) x).id = x.id := by
    intro x
    unfold applyOutcomes processedTask
    split
    · split <;> rfl
    · rfl
  have hany : (selectDue st.queue now batchSize shard).any
      (fun s => s.id == t.id) = true :=
    List.any_eq_true.mpr ⟨t, ht, by simp⟩
  have hmemq : t ∈ st.queue := (mem_selectDue ht).2
  have hfq : st.queue.find? (fun x => x.id == t.id) = some t :=
    find?_beq_of_nodup (fun x => x.id) st.queue hq t hmemq
  have hfind : ((processQueue gw sock now batchSize shard st).1).queue.find?
      (fun x => x.id == t.id) =
      some (applyOutcomes gw sock st.leads now
        (selectDue st.queue now batchSize shard) t) := by
    rw [hqueue, find?_map_pred_eq _ _ (fun x => by rw [hidpres]), hfq]
    rfl
  refine ⟨?_, ?_, ?_⟩
  · intro v hv
    constructor
    · rw [hfind]
      simp [applyOutcomes, hany, processedTask, hv]
    · intro L hLmem hLid
      have hstamp : (selectDue st.queue now batchSize shard).any
          (fun s => s.leadId == L.id && deliveryOk (taskOutcome gw sock st.leads s))
            = true := by
        refine List.any_eq_true.mpr ⟨t, ht, ?_⟩
        rw [← hLid] at *
        simp [hv, deliveryOk, hLid]
      have hlid : ∀ x, (applyLeadStamp gw sock st.leads now
          (selectDue st.queue now batchSize shard) x).id = x.id := by
        intro x
        unfold applyLeadStamp
        split <;> rfl
      have hfl : st.leads.find? (fun x => x.id == L.id) = some L :=
        find?_beq_of_nodup (fun x => x.id) st.leads hl L hLmem
      rw [← hLid, hleads, find?_map_pred_eq _ _ (fun x => by rw [hlid]), hfl]
      simp [applyLeadStamp, hstamp]
  · intro m hm
    rw [hfind]
    simp [applyOutcomes, hany, processedTask, hm]
  · intro now2 bs2 sh2 u hu heq
    obtain ⟨hdf, hmem2⟩ := mem_selectDue hu
    rw [hqueue] at hmem2
    obtain ⟨y, hy, hxy⟩ := List.mem_map.mp hmem2
    by_cases hc : (selectDue st.queue now batchSize shard).any
        (fun s => s.id == y.id) = true
    · simp only [applyOutcomes, hc, if_true] at hxy
      cases houtcome : taskOutcome gw sock st.leads y with
      | ok v =>
        simp only [processedTask, houtcome] at hxy
        subst hxy; simp [dueFilter] at hdf
      | error m =>
        simp only [processedTask, houtcome] at hxy
        subst hxy; simp [dueFilter] at hdf
    · rw [Bool.not_eq_true] at hc
      simp only [applyOutcomes, hc, Bool.false_eq_true, if_false] at hxy
      subst hxy
      have hany2 : (selectDue st.queue now batchSize shard).any
          (fun s => s.id == y.id) = true :=
        List.any_eq_true.mpr ⟨t, ht, by simp [heq]⟩
      rw [hany2] at hc
      cases hc

/-- Witness for C3: a concrete successful delivery is recorded as sent. -/
theorem processQueue_task_outcomes_witness :
    taskA ∈ selectDue storeW.queue 5 5 none ∧
    ((processQueue gwOk true 5 5 none storeW).1).queue.find?
        (fun x => x.id == taskA.id) =
      some { taskA with status := "sent", processedAt := some 5 } :=
  ⟨by decide,
    (((processQueue_task_outcomes gwOk true 5 5 none storeW (by decide)
        (by decide)).2 taskA (by decide)).1
      [SendAction.text "525512345678" "hola"] (by rfl)).1⟩

/- ======================= scheduling lemmas ======================= -/

theorem mkTasks_length (lid trg : String) (startMs : Int) (shardOf : Nat → Nat)
    (baseId : Nat) :
    ∀ (ms : List SeqMessage) (i : Nat),
      (mkTasks lid trg startMs shardOf baseId i ms).length = ms.length := by
  intro ms
  induction ms with
  | nil => intro i; rfl
  | cons m ms ih => intro i; simp [mkTasks, ih]

theorem mkTasks_getElem? (lid trg : String) (startMs : Int) (shardOf : Nat → Nat)
    (baseId : Nat) :
    ∀ (ms : List SeqMessage) (i k : Nat),
      (mkTasks lid trg startMs shardOf baseId i ms)[k]? =
        (ms[k]?).map (mkTask lid trg startMs shardOf baseId (i + k)) := by
  intro ms
  induction ms with
  | nil => intro i k; simp [mkTasks]
  | cons m ms ih =>
    intro i k
    cases k with
    | zero => simp [mkTasks]
    | succ k =>
      simp only [mkTasks, List.getElem?_cons_succ, ih (i + 1) k]
      have : i + 1 + k = i + (k + 1) := by omega
      rw [this]

/-- Claim C4: for an active nonempty sequence definition, found by id or by
trigger fallback, scheduling creates exactly one pending task per message,
task i carrying stepIndex i and dueAt = start + delay i minutes, and
returns the message count; a missing, inactive or empty definition returns
0 and writes nothing. -/
theorem scheduleSequenceForLead_spec (defs : List SeqDef) (shardOf : Nat → Nat)
    (leadId trigger : String) (startMs : Int) (st : Store) :
    (∀ d, findSeq defs trigger = some d → d.active ≠ some false →
      d.messages ≠ [] →
      (scheduleSequenceForLead defs shardOf leadId trigger startMs st).2 =
        d.messages.length ∧
      ((scheduleSequenceForLead defs shardOf leadId trigger startMs st).1).queue.length
        = st.queue.length + d.messages.length ∧
      (∀ i m, d.messages[i]? = some m →
        ∃ t,
          ((scheduleSequenceForLead defs shardOf leadId trigger
            startMs st).1).queue[st.queue.length + i]? = some t ∧
          t.status = "pending" ∧ t.idx = i ∧ t.leadId = leadId ∧
          t.trigger = trigger ∧ t.dueAt = startMs + (m.delay : Int) * 60000)) ∧
    (findSeq defs trigger = none →
      scheduleSequenceForLead defs shardOf leadId trigger startMs st = (st, 0)) ∧
    (∀ d, findSeq defs trigger = some d →
      (d.active = some false ∨ d.messages = []) →
      scheduleSequenceForLead defs shardOf leadId trigger startMs st = (st, 0)) := by
  refine ⟨?_, ?_, ?_⟩
  · intro d hfind hact hmsg
    have hcond : (d.active == some false || d.messages.isEmpty) = false := by
      simp only [Bool.or_eq_false_iff]
      constructor
      · exact beq_eq_false_iff_ne.mpr hact
      · simpa [List.isEmpty_iff] using hmsg
    refine ⟨?_, ?_, ?_⟩
    · simp [scheduleSequenceForLead, hfind, hcond]
    · simp [scheduleSequenceForLead, hfind, hcond,
        mkTasks_length leadId trigger startMs shardOf st.nextId d.messages 0]
    · intro i m hm
      refine ⟨mkTask leadId trigger startMs shardOf st.nextId i m, ?_, ?_⟩
      · simp only [scheduleSequenceForLead, hfind, hcond, Bool.false_eq_true,
          if_false]
        rw [List.getElem?_append_right (by omega)]
        have hidx : st.queue.length + i - st.queue.length = i := by omega
        rw [hidx, mkTasks_getElem? leadId trigger startMs shardOf st.nextId
          d.messages 0 i, hm]
        simp
      · exact ⟨rfl, rfl, rfl, rfl, rfl⟩
  · intro hfind
    simp [scheduleSequenceForLead, hfind]
  · intro d hfind hcase
    have hcond : (d.active == some false || d.messages.isEmpty) = true := by
      rcases hcase with h | h
      · simp [h]
      · simp [h]
    simp [scheduleSequenceForLead, hfind, hcond]

/-- Witness for C4: the one-step fixture definition schedules one task with
the expected stepIndex and due time. -/
theorem scheduleSequenceForLead_spec_witness :
    (scheduleSequenceForLead defsW shardOf0 "lead1" "LeadSeguimiento" 7 storeW).2 =
      seqDefW.messages.length ∧
    ((scheduleSequenceForLead defsW shardOf0 "lead1" "LeadSeguimiento"
      7 storeW).1).queue.length = storeW.queue.length + seqDefW.messages.length :=
  ⟨((scheduleSequenceForLead_spec defsW shardOf0 "lead1" "LeadSeguimiento" 7
      storeW).1 seqDefW (by rfl) (by decide) (by decide)).1,
   ((scheduleSequenceForLead_spec defsW shardOf0 "lead1" "LeadSeguimiento" 7
      storeW).1 seqDefW (by rfl) (by decide) (by decide)).2.1⟩

/-- Claim C5: cancelSequences deletes exactly the pending tasks of the given
lead whose trigger is in the given set (other leads, other triggers and
non-pending tasks survive, in order), returns how many were deleted, and
is a returning-0 no-op on a falsy lead id or an empty trigger list. -/
theorem cancelSequences_spec (leadId : String) (triggers : List String)
    (st : Store) :
    (leadId ≠ "" → triggers ≠ [] →
      (∀ t, t ∈ (cancelSequences leadId triggers st).1.queue ↔
        t ∈ st.queue ∧
          ¬(t.leadId = leadId ∧ t.status = "pending" ∧ t.trigger ∈ triggers)) ∧
      ((cancelSequences leadId triggers st).1.queue).Sublist st.queue ∧
      (cancelSequences leadId triggers st).2 +
        ((cancelSequences leadId triggers st).1.queue).length =
          st.queue.length ∧
      ((cancelSequences leadId triggers st).1).leads = st.leads) ∧
    (leadId = "" ∨ triggers = [] →
      cancelSequences leadId triggers st = (st, 0)) := by
  constructor
  · intro h1 h2
    have hcond : (leadId == "" || triggers.isEmpty) = false := by
      simp only [Bool.or_eq_false_iff]
      exact ⟨beq_eq_false_iff_ne.mpr h1, by simpa [List.isEmpty_iff] using h2⟩
    have hiff : ∀ t, cancelPred leadId triggers t = true ↔
        (t.leadId = leadId ∧ t.status = "pending" ∧ t.trigger ∈ triggers) := by
      intro t
      simp [cancelPred, and_assoc]
    refine ⟨?_, ?_, ?_, ?_⟩
    · intro t
      simp only [cancelSequences, hcond, Bool.false_eq_true, if_false,
        List.mem_filter, Bool.not_eq_true']
      constructor
      · rintro ⟨hmem, hfalse⟩
        refine ⟨hmem, fun hprop => ?_⟩
        exact absurd ((hiff t).mpr hprop) (by simp [hfalse])
      · rintro ⟨hmem, hnprop⟩
        refine ⟨hmem, ?_⟩
        cases hpt : cancelPred leadId triggers t
        · rfl
        · exact absurd ((hiff t).mp hpt) hnprop
    · simp only [cancelSequences, hcond, Bool.false_eq_true, if_false]
      exact List.filter_sublist st.queue
    · simp only [cancelSequences, hcond, Bool.false_eq_true, if_false]
      rw [List.countP_eq_length_filter]
      exact (List.length_eq_length_filter_add (cancelPred leadId triggers)).symm
    · simp [cancelSequences, hcond]
  · intro h
    have hcond : (leadId == "" || triggers.isEmpty) = true := by
      rcases h with h | h
      · simp [h]
      · simp [h]
    simp [cancelSequences, hcond]

/-- Witness for C5: cancelling NuevoLead for the fixture lead deletes both
pending tasks and returns 2. -/
theorem cancelSequences_spec_witness :
    (cancelSequences "lead1" ["NuevoLead"] storeW).2 +
      ((cancelSequences "lead1" ["NuevoLead"] storeW).1.queue).length =
        storeW.queue.length :=
  ((cancelSequences_spec "lead1" ["NuevoLead"] storeW).1 (by decide)
    (by decide)).2.2.1

/- ======================= stuck-recovery lemmas ======================= -/

/-- Claim C6: the recovery sweep resets every generation-pending job whose
start time is more than the threshold old, clearing its task id and error
message; generation-pending jobs newer than the threshold and jobs in any
other stage are untouched; and the sweep is idempotent. -/
theorem retryStuckMusic_spec (now : Int) (th : Nat) (jobs : List MusicJob) :
    (retryStuckMusic now th jobs).length = jobs.length ∧
    (∀ (i : Nat) (j : MusicJob) (g : Int), jobs[i]? = some j →
      j.status = "Procesando música" →
      j.generatedAt = some g → g < now - (th : Int) * 60000 →
      (retryStuckMusic now th jobs)[i]? =
        some { j with status := "Sin música", taskId := none, errorMsg := none,
                      updatedAt := some now }) ∧
    (∀ (i : Nat) (j : MusicJob) (g : Int), jobs[i]? = some j →
      j.generatedAt = some g →
      now - (th : Int) * 60000 < g →
      (retryStuckMusic now th jobs)[i]? = some j) ∧
    (∀ (i : Nat) (j : MusicJob), jobs[i]? = some j →
      j.status ≠ "Procesando música" →
      (retryStuckMusic now th jobs)[i]? = some j) ∧
    retryStuckMusic now th (retryStuckMusic now th jobs) =
      retryStuckMusic now th jobs := by
  refine ⟨by simp [retryStuckMusic], ?_, ?_, ?_, ?_⟩
  · intro i j g hj hs hg hlt
    have hdec : decide (g ≤ now - (th : Int) * 60000) = true :=
      decide_eq_true (le_of_lt hlt)
    simp [retryStuckMusic, hj, hs, hg, hdec]
  · intro i j g hj hg hgt
    have hdec : decide (g ≤ now - (th : Int) * 60000) = false :=
      decide_eq_false (not_le.mpr hgt)
    simp [retryStuckMusic, hj, hg, hdec]
  · intro i j hj hs
    have hbeq : (j.status == "Procesando música") = false :=
      beq_eq_false_iff_ne.mpr hs
    simp only [retryStuckMusic, List.getElem?_map, hj, Option.map_some']
    rw [hbeq]
    simp
  · simp only [retryStuckMusic, List.map_map]
    apply List.map_congr_left
    intro j _
    simp only [Function.comp_apply]
    by_cases hcond : (j.status == "Procesando música" &&
        (match j.generatedAt with
         | some g => decide (g ≤ now - (th : Int) * 60000)
         | none => false)) = true
    · simp [hcond]
    · rw [Bool.not_eq_true] at hcond
      simp [hcond]

/-- Witness for C6: the stuck fixture job is reset once and the second sweep
changes nothing about it. -/
theorem retryStuckMusic_spec_witness :
    (retryStuckMusic 600001 10 [jobStuck])[0]? =
      some { jobStuck with status := "Sin música", taskId := none,
                           errorMsg := none, updatedAt := some 600001 } :=
  (retryStuckMusic_spec 600001 10 [jobStuck]).2.1 0 jobStuck 0 (by rfl) (by rfl)
    (by rfl) (by decide)

/- ======================= stage-advance lemmas ======================= -/

theorem updateById_changed (g : MusicJob → MusicJob) (k : Nat)
    (jobs : List MusicJob) (hnd : (jobs.map (fun j => j.id)).Nodup)
    (i1 : Nat) (x1 : MusicJob) (h1 : jobs[i1]? = some x1)
    (hch : (updateById k g jobs)[i1]? ≠ some x1) :
    x1.id = k ∧ ∀ (i2 : Nat) (x2 : MusicJob), i2 ≠ i1 → jobs[i2]? = some x2 →
      (updateById k g jobs)[i2]? = some x2 := by
  have hid1 : (x1.id == k) = true := by
    by_contra hne
    rw [Bool.not_eq_true] at hne
    apply hch
    simp only [updateById, List.getElem?_map, h1]
    simp [hne]
    intro h
    exact absurd h (beq_eq_false_iff_ne.mp hne)
  refine ⟨beq_iff_eq.mp hid1, ?_⟩
  intro i2 x2 hne h2
  by_cases hid2 : (x2.id == k) = true
  · exfalso
    have hx12 : x2 = x1 :=
      List.inj_on_of_nodup_map hnd (List.getElem?_mem h2) (List.getElem?_mem h1)
        (by rw [beq_iff_eq.mp hid2, beq_iff_eq.mp hid1])
    subst hx12
    have hlt : i2 < jobs.length := (List.getElem?_eq_some.mp h2).1
    exact hne (List.getElem?_inj hlt (List.Nodup.of_map _ hnd) (h2.trans h1.symm))
  · rw [Bool.not_eq_true] at hid2
    simp only [updateById, List.getElem?_map, h2]
    simp [hid2]
    intro h
    exact absurd h (beq_eq_false_iff_ne.mp hid2)

theorem find?_updateById_changed (pred : MusicJob → Bool) (g : MusicJob → MusicJob)
    (jobs : List MusicJob) (hnd : (jobs.map (fun j => j.id)).Nodup) (j : MusicJob)
    (hfind : jobs.find? pred = some j) (i1 : Nat) (x1 : MusicJob)
    (h1 : jobs[i1]? = some x1) (hch : (updateById j.id g jobs)[i1]? ≠ some x1) :
    jobs.find? pred = some x1 ∧
      ∀ (i2 : Nat) (x2 : MusicJob), i2 ≠ i1 → jobs[i2]? = some x2 →
        (updateById j.id g jobs)[i2]? = some x2 := by
  obtain ⟨hid, hrest⟩ := updateById_changed g j.id jobs hnd i1 x1 h1 hch
  have hx1j : x1 = j :=
    List.inj_on_of_nodup_map hnd (List.getElem?_mem h1)
      (List.mem_of_find?_eq_some hfind) hid
  exact ⟨by rw [hx1j]; exact hfind, hrest⟩

/-- Claim C7 (amended): the lyric, prompt and generation-launch functions
each advance at most one job per invocation — any position that changes is
the job their single-document stage query returned, and every other
position is untouched — while the clip-production and send functions
iterate over every job currently in their source stage and may advance all
of them in one invocation (jobs outside the source stage are untouched). -/
theorem stage_advance_spec (lo po : MusicJob → Option String)
    (so : MusicJob → Except String String) (sendO : MusicJob → Option String)
    (tOk mOk uOk : Nat → Bool) (urlOf : Nat → String) (now : Int)
    (jobs : List MusicJob) (hnd : (jobs.map (fun j => j.id)).Nodup) :
    (∀ (i1 : Nat) (x1 : MusicJob), jobs[i1]? = some x1 →
      (generarLetraParaMusica lo now jobs)[i1]? ≠ some x1 →
      jobs.find? (fun y => y.status == "Sin letra") = some x1 ∧
      ∀ (i2 : Nat) (x2 : MusicJob), i2 ≠ i1 → jobs[i2]? = some x2 →
        (generarLetraParaMusica lo now jobs)[i2]? = some x2) ∧
    (∀ (i1 : Nat) (x1 : MusicJob), jobs[i1]? = some x1 →
      (generarPromptParaMusica po jobs)[i1]? ≠ some x1 →
      jobs.find? (fun y => y.status == "Sin prompt") = some x1 ∧
      ∀ (i2 : Nat) (x2 : MusicJob), i2 ≠ i1 → jobs[i2]? = some x2 →
        (generarPromptParaMusica po jobs)[i2]? = some x2) ∧
    (∀ (i1 : Nat) (x1 : MusicJob), jobs[i1]? = some x1 →
      (generarMusicaConSuno so now jobs)[i1]? ≠ some x1 →
      jobs.find? (fun y => y.status == "Sin música") = some x1 ∧
      ∀ (i2 : Nat) (x2 : MusicJob), i2 ≠ i1 → jobs[i2]? = some x2 →
        (generarMusicaConSuno so now jobs)[i2]? = some x2) ∧
    (∀ (i : Nat) (x : MusicJob), jobs[i]? = some x → x.status ≠ "Audio listo" →
      (procesarClips tOk mOk uOk urlOf jobs)[i]? = some x) ∧
    (∀ (i : Nat) (x : MusicJob) (u : String), jobs[i]? = some x →
      x.status = "Audio listo" → x.fullUrl = some u →
      tOk x.id = true → mOk x.id = true → uOk x.id = true →
      (procesarClips tOk mOk uOk urlOf jobs)[i]? =
        some { x with status := "Enviar música", clipUrl := some (urlOf x.id) }) ∧
    (∀ (i : Nat) (x : MusicJob), jobs[i]? = some x →
      x.status ≠ "Enviar música" →
      (enviarMusicaPorWhatsApp sendO now jobs)[i]? = some x) ∧
    (∀ (i : Nat) (x : MusicJob), jobs[i]? = some x →
      x.status = "Enviar música" → x.leadPhone ≠ "" → x.lyrics.getD "" ≠ "" →
      sendO x = none →
      (enviarMusicaPorWhatsApp sendO now jobs)[i]? =
        some { x with status := "Enviada",
                      listenUrl :=
                        some ("https://cantalab.com/escuchar/" ++ x.leadPhone),
                      sentAt := some now }) := by
  refine ⟨?_, ?_, ?_, ?_, ?_, ?_, ?_⟩
  · intro i1 x1 h1 hch
    cases hf : jobs.find? (fun y => y.status == "Sin letra") with
    | none =>
      rw [show generarLetraParaMusica lo now jobs = jobs by
        simp [generarLetraParaMusica, hf]] at hch
      exact absurd h1 hch
    | some j =>
      cases ho : lo j with
      | none =>
        rw [show generarLetraParaMusica lo now jobs = jobs by
          simp [generarLetraParaMusica, hf, ho]] at hch
        exact absurd h1 hch
      | some s =>
        by_cases hs : (jsTrim s == "") = true
        · rw [show generarLetraParaMusica lo now jobs = jobs by
            simp [generarLetraParaMusica, hf, ho, hs]] at hch
          exact absurd h1 hch
        · rw [Bool.not_eq_true] at hs
          have hupd : generarLetraParaMusica lo now jobs =
              updateById j.id (fun x =>
                { x with lyrics := some (jsTrim s), status := "Sin prompt",
                         lyricsGeneratedAt := some now }) jobs := by
            simp [generarLetraParaMusica, hf, ho, hs]
          rw [hupd] at hch ⊢
          have hres := find?_updateById_changed _ _ jobs hnd j hf i1 x1 h1 hch
          exact ⟨hf.symm.trans hres.1, hres.2⟩
  · intro i1 x1 h1 hch
    cases hf : jobs.find? (fun y => y.status == "Sin prompt") with
    | none =>
      rw [show generarPromptParaMusica po jobs = jobs by
        simp [generarPromptParaMusica, hf]] at hch
      exact absurd h1 hch
    | some j =>
      cases ho : po j with
      | none =>
        rw [show generarPromptParaMusica po jobs = jobs by
          simp [generarPromptParaMusica, hf, ho]] at hch
        exact absurd h1 hch
      | some s =>
        have hupd : generarPromptParaMusica po jobs =
            updateById j.id (fun x =>
              { x with stylePrompt := some (jsTrim s),
                       status := "Sin música" }) jobs := by
          simp [generarPromptParaMusica, hf, ho]
        rw [hupd] at hch ⊢
        have hres := find?_updateById_changed _ _ jobs hnd j hf i1 x1 h1 hch
        exact ⟨hf.symm.trans hres.1, hres.2⟩
  · intro i1 x1 h1 hch
    cases hf : jobs.find? (fun y => y.status == "Sin música") with
    | none =>
      rw [show generarMusicaConSuno so now jobs = jobs by
        simp [generarMusicaConSuno, hf]] at hch
      exact absurd h1 hch
    | some j =>
      have hupd : generarMusicaConSuno so now jobs =
          updateById j.id (fun x =>
            match so j with
            | .ok tid =>
              { x with status := "Procesando música", generatedAt := some now,
                       taskId := some tid }
            | .error m =>
              { x with status := "Error música", generatedAt := some now,
                       errorMsg := some m, updatedAt := some now }) jobs := by
        simp [generarMusicaConSuno, hf]
      rw [hupd] at hch ⊢
      have hres := find?_updateById_changed _ _ jobs hnd j hf i1 x1 h1 hch
      exact ⟨hf.symm.trans hres.1, hres.2⟩
  · intro i x hx hs
    have hbeq : (x.status == "Audio listo") = false := beq_eq_false_iff_ne.mpr hs
    simp [procesarClips, List.getElem?_map, hx, procesarClipsJob, hbeq]
  · intro i x u hx hs hu htrim hmix hup
    simp [procesarClips, List.getElem?_map, hx, procesarClipsJob, hs, hu, htrim,
      hmix, hup]
  · intro i x hx hs
    have hbeq : (x.status == "Enviar música") = false := beq_eq_false_iff_ne.mpr hs
    simp [enviarMusicaPorWhatsApp, List.getElem?_map, hx, enviarJob, hbeq]
  · intro i x hx hs hphone hlyr hsend
    have hb1 : (x.leadPhone == "") = false := beq_eq_false_iff_ne.mpr hphone
    have hb2 : (x.lyrics.getD "" == "") = false := beq_eq_false_iff_ne.mpr hlyr
    simp [enviarMusicaPorWhatsApp, List.getElem?_map, hx, enviarJob, hs, hb1, hb2,
      hsend]

/-- Counterexample to claim C7 as frozen: the clip-production stage function
advances every job in its source stage, here two jobs in one invocation,
not at most one. -/
theorem procesarClips_advances_two :
    jobAL1.status = "Audio listo" ∧ jobAL2.status = "Audio listo" ∧
    (procesarClips (fun _ => true) (fun _ => true) (fun _ => true) (fun _ => "u")
      [jobAL1, jobAL2]).map (fun j => j.status) =
        ["Enviar música", "Enviar música"] :=
  ⟨rfl, rfl, rfl⟩

/-- Witness for C7 (amended): with every oracle succeeding, the second of two
ready-audio jobs is advanced to the send stage as well. -/
theorem stage_advance_spec_witness :
    (procesarClips (fun _ => true) (fun _ => true) (fun _ => true) (fun _ => "u")
      [jobAL1, jobAL2])[1]? =
      some { jobAL2 with status := "Enviar música", clipUrl := some "u" } :=
  (stage_advance_spec (fun _ => none) (fun _ => none) (fun _ => Except.ok "t")
    (fun _ => none) (fun _ => true) (fun _ => true) (fun _ => true) (fun _ => "u")
    0 [jobAL1, jobAL2] (by decide)).2.2.2.2.1 1 jobAL2 "u2" (by rfl) (by rfl)
    (by rfl) rfl rfl rfl

/- ================= listen-progress and delivery claims ================= -/

/-- Claim C1 (code-bug evidence): the progress endpoint sets the half-heard
flag on the first invocation past the threshold, cancels MusicaLead and
schedules LeadSeguimiento — but a second invocation with the same token
runs the cancel-and-schedule pair again, duplicating the follow-up tasks,
because the handler never reads the flag it wrote. -/
theorem musicProgress_fires_twice :
    ((musicProgress defsW shardOf0 100 "tok" sysW).1.jobs.map
      (fun j => j.listen.halfHeard)) = [true] ∧
    (musicProgress defsW shardOf0 100 "tok" sysW).1.store.queue.countP
      (fun t => t.trigger == "MusicaLead") = 0 ∧
    (musicProgress defsW shardOf0 100 "tok" sysW).1.store.queue.countP
      (fun t => t.trigger == "LeadSeguimiento") = 1 ∧
    (musicProgress defsW shardOf0 100 "tok"
      ((musicProgress defsW shardOf0 100 "tok" sysW).1)).1.store.queue.countP
      (fun t => t.trigger == "LeadSeguimiento") = 2 :=
  ⟨rfl, rfl, rfl, rfl⟩

/-- Claim C8: delivery fails when the lead record is absent and when its
phone has no digits; an unknown payload kind behaves exactly as kind
texto; and a text-like kind sends nothing when the rendered content trims
to empty. -/
theorem deliverPayload_spec (gw : SendAction → Option String) (sock : Bool)
    (leads : List Lead) (leadId : String) (p : Payload) :
    (leads.find? (fun L => L.id == leadId) = none →
      deliverPayload gw sock leads leadId p =
        .error ("Lead no existe: " ++ leadId)) ∧
    (∀ L, leads.find? (fun L => L.id == leadId) = some L →
      digitsOnly L.telefono = "" →
      deliverPayload gw sock leads leadId p =
        .error ("Lead sin telefono: " ++ leadId)) ∧
    (p.type ∉ (["texto", "formulario", "audio", "clip", "imagen", "video"] :
        List String) →
      deliverPayload gw sock leads leadId p =
        deliverPayload gw sock leads leadId { p with type := "texto" }) ∧
    (∀ L, leads.find? (fun L => L.id == leadId) = some L →
      digitsOnly L.telefono ≠ "" → (p.type = "texto" ∨ p.type = "formulario") →
      jsTrim (replacePlaceholders p.contenido L) = "" →
      deliverPayload gw sock leads leadId p = .ok []) := by
  refine ⟨?_, ?_, ?_, ?_⟩
  · intro h
    simp [deliverPayload, h]
  · intro L hL hphone
    simp [deliverPayload, hL, hphone]
  · intro hnot
    simp only [List.mem_cons, List.not_mem_nil, or_false, not_or] at hnot
    obtain ⟨ht1, ht2, ht3, ht4, ht5, ht6⟩ := hnot
    by_cases hempty : p.type = ""
    · simp [deliverPayload, hempty]
    · have h0 : (p.type == "") = false := beq_eq_false_iff_ne.mpr hempty
      have h1 : (p.type == "texto") = false := beq_eq_false_iff_ne.mpr ht1
      have h2 : (p.type == "formulario") = false := beq_eq_false_iff_ne.mpr ht2
      have h3 : (p.type == "audio") = false := beq_eq_false_iff_ne.mpr ht3
      have h4 : (p.type == "clip") = false := beq_eq_false_iff_ne.mpr ht4
      have h5 : (p.type == "imagen") = false := beq_eq_false_iff_ne.mpr ht5
      have h6 : (p.type == "video") = false := beq_eq_false_iff_ne.mpr ht6
      simp [deliverPayload, h0, h1, h2, h3, h4, h5, h6]
  · intro L hL hphone hty hrend
    have hpb : (digitsOnly L.telefono == "") = false :=
      beq_eq_false_iff_ne.mpr hphone
    rcases hty with h | h
    · simp [deliverPayload, hL, hpb, h, hrend]
    · simp [deliverPayload, hL, hpb, h, hrend]

/-- Witness for C8: delivering to an absent lead fails with the lead-missing
error. -/
theorem deliverPayload_spec_witness :
    deliverPayload gwOk true [] "x" { type := "texto", contenido := "hola" } =
      .error ("Lead no existe: " ++ "x") :=
  (deliverPayload_spec gwOk true [] "x"
    { type := "texto", contenido := "hola" }).1 rfl

/-- Claim C9: the audio-clip send makes at most three attempts, with strictly
increasing backoff delays between them; when every attempt times out the
failure surfaces after the third attempt with delays 2000 and 4000 ms; a
non-timeout error surfaces immediately, with no further attempt. -/
theorem sendClipMessage_retry_spec (oracle : Nat → Option String) :
    (sendClipMessage oracle).attempts ≤ 3 ∧
    List.Chain' (fun a b => a < b) (sendClipMessage oracle).delays ∧
    (∀ e1 e2 e3, oracle 1 = some e1 → includesTimedOut e1 = true →
      oracle 2 = some e2 → includesTimedOut e2 = true →
      oracle 3 = some e3 →
      sendClipMessage oracle = ⟨.error e3, 3, [2000, 4000]⟩) ∧
    (∀ e, oracle 1 = some e → includesTimedOut e = false →
      sendClipMessage oracle = ⟨.error e, 1, []⟩) ∧
    (∀ e1 e2, oracle 1 = some e1 → includesTimedOut e1 = true →
      oracle 2 = some e2 → includesTimedOut e2 = false →
      sendClipMessage oracle = ⟨.error e2, 2, [2000]⟩) := by
  refine ⟨?_, ?_, ?_, ?_, ?_⟩
  · unfold sendClipMessage
    split
    · simp
    · split
      · simp
      · split
        · simp
        · split
          · simp
          · split
            · simp
            · simp
  · unfold sendClipMessage
    split
    · simp
    · split
      · simp
      · split
        · simp [List.chain'_cons]
        · split
          · simp [List.chain'_cons]
          · split
            · simp [List.chain'_cons]
            · simp [List.chain'_cons]
  · intro e1 e2 e3 h1 ht1 h2 ht2 h3
    unfold sendClipMessage
    rw [h1, h2, h3]
    simp [ht1, ht2]
  · intro e h1 ht1
    unfold sendClipMessage
    rw [h1]
    simp [ht1]
  · intro e1 e2 h1 ht1 h2 ht2
    unfold sendClipMessage
    rw [h1, h2]
    simp [ht1, ht2]

/-- Witness for C9: three timeouts in a row surface the failure after three
attempts, with increasing backoff. -/
theorem sendClipMessage_retry_spec_witness :
    sendClipMessage (fun _ => some "Timed Out") =
      ⟨.error "Timed Out", 3, [2000, 4000]⟩ :=
  (sendClipMessage_retry_spec (fun _ => some "Timed Out")).2.2.1 "Timed Out"
    "Timed Out" "Timed Out" rfl (by decide) rfl (by decide) rfl

end Crm
